import Mathlib

/-!
Verification of the remap expression functions `ip_subnet`, `only_fields`
and `Not` from the vector repository, together with the parts of the
remap-lang type/value model they use.

Shallow embedding conventions:
* Rust machine integers are modelled as `Nat` with explicit bounds where
  overflow or checked arithmetic matters.
* Fallible Rust code returns a result type; a Rust panic (e.g. `unwrap`
  on an `Err`) is modelled as the distinct `RTResult.panicked` outcome so
  that typed failures and crashes are not conflated.
* The operand state threading of `Expression::execute` is modelled by a
  function from (program-state, object) to (result, program-state, object).
-/

namespace Vector

set_option maxRecDepth 100000
set_option maxHeartbeats 1000000

/-- Outcome of running a fallible piece of remap code: a value, a typed
failure carrying a human-readable cause, or a process panic. -/
inductive RTResult (α : Type) where
  | ok (v : α)
  | error (msg : String)
  | panicked (msg : String)
deriving DecidableEq, Repr

def RTResult.map {α β : Type} (f : α → β) : RTResult α → RTResult β
  | .ok v => .ok (f v)
  | .error m => .error m
  | .panicked m => .panicked m

def RTResult.bind {α β : Type} : RTResult α → (α → RTResult β) → RTResult β
  | .ok v, f => f v
  | .error m, _ => .error m
  | .panicked m, _ => .panicked m

/-- `true` exactly on a typed failure (Rust `Err`); a panic is not a typed
failure. -/
def RTResult.isErr {α : Type} : RTResult α → Bool
  | .error _ => true
  | _ => false

def RTResult.isOk {α : Type} : RTResult α → Bool
  | .ok _ => true
  | _ => false

/-- The remap runtime `Value` (tagged union).  The claims under scrutiny
only exercise the Null, Boolean, Integer and String tags, so the model
carries those; `String` payloads are modelled as Lean strings (the code
reads them back through `String::from_utf8_lossy`, which is the identity
on valid UTF-8). -/
inductive Value where
  | null
  | boolean (b : Bool)
  | integer (i : Int)
  | str (s : String)
deriving DecidableEq, Repr

/-- The remap `value::Kind` bit-set restricted to the tags carried by
`Value`; one Boolean flag per tag, union is pointwise disjunction. -/
structure Kind where
  hasNull : Bool
  hasBoolean : Bool
  hasInteger : Bool
  hasString : Bool
deriving DecidableEq, Repr

def Kind.union (a b : Kind) : Kind :=
  ⟨a.hasNull || b.hasNull, a.hasBoolean || b.hasBoolean,
   a.hasInteger || b.hasInteger, a.hasString || b.hasString⟩

def Kind.nullOnly : Kind := ⟨true, false, false, false⟩
def Kind.booleanOnly : Kind := ⟨false, true, false, false⟩
def Kind.integerOnly : Kind := ⟨false, false, true, false⟩
def Kind.stringOnly : Kind := ⟨false, false, false, true⟩

/-- The runtime tag of a value, as a singleton `Kind`. -/
def Value.kindOf : Value → Kind
  | .null => Kind.nullOnly
  | .boolean _ => Kind.booleanOnly
  | .integer _ => Kind.integerOnly
  | .str _ => Kind.stringOnly

/-- Modelled from the spec: remap-lang's `TypeDef`
`{ fallible, optional, kind }` (the defining crate module is not among
the provided sources; only `not.rs` of remap-lang is). -/
structure TypeDef where
  fallible : Bool
  optional : Bool
  kind : Kind
deriving DecidableEq, Repr

/-- Modelled from the spec: merge ORs fallibility and optionality and
unions kinds. -/
def TypeDef.merge (a b : TypeDef) : TypeDef :=
  ⟨a.fallible || b.fallible, a.optional || b.optional, a.kind.union b.kind⟩

/-- Modelled from the spec: `fallible_unless(K)` stays as-is only if the
kind set is already exactly `K`, otherwise the result is fallible. -/
def TypeDef.fallibleUnless (td : TypeDef) (k : Kind) : TypeDef :=
  if td.kind = k then td else { td with fallible := true }

/-- Modelled from the spec: `with_constraint(K)` replaces the kind set. -/
def TypeDef.withConstraint (td : TypeDef) (k : Kind) : TypeDef :=
  { td with kind := k }

/-- The `Expression` trait: `execute` threads the program state and the
object and yields a result; `type_def` reads the compiler state.  The
state, object and compiler-state types are abstract parameters. -/
structure Expression (P O C : Type) where
  exec : P → O → RTResult Value × P × O
  tdef : C → TypeDef

/-- Modelled from the spec: remap-lang's `Literal` expression — executing
it yields its value unchanged and its `TypeDef` is non-fallible,
non-optional, with the value's own kind (the Literal module is not among
the provided sources). -/
def litExpr {P O C : Type} (v : Value) : Expression P O C :=
  ⟨fun st o => (.ok v, st, o), fun _ => ⟨false, false, v.kindOf⟩⟩

/-! ## IP addresses

`std::net::IpAddr` with IPv4 octets and IPv6 16-bit segments, each
modelled as bounded `Nat` (all constructed values stay in range). -/

inductive IpAddr where
  | v4 (a b c d : Nat)
  | v6 (s0 s1 s2 s3 s4 s5 s6 s7 : Nat)
deriving DecidableEq, Repr

def IpAddr.isV4 : IpAddr → Bool
  | .v4 _ _ _ _ => true
  | .v6 _ _ _ _ _ _ _ _ => false

/-! ### The string parser for IP addresses

Models `impl FromStr for IpAddr` of the Rust standard library (an
external dependency of the repository, not repository code): recursive
descent over the character list, returning the parsed payload and the
unconsumed remainder, with alternatives tried on the original input. -/

/-- `char::to_digit(10)`. -/
def digitVal (c : Char) : Option Nat :=
  if c.isDigit then some (c.toNat - 48) else none

/-- `char::to_digit(16)`. -/
def hexVal (c : Char) : Option Nat :=
  if c.isDigit then some (c.toNat - 48)
  else if 'a' ≤ c && c ≤ 'f' then some (c.toNat - 87)
  else if 'A' ≤ c && c ≤ 'F' then some (c.toNat - 55)
  else none

/-- Greedy digit accumulation with the checked-arithmetic bound and the
digit-count ceiling of the std parser's `read_number`; `none` on
overflow or on exceeding `maxD` digits. -/
def readNumCore (dv : Char → Option Nat) (radix bound : Nat) (maxD : Option Nat) :
    Nat → Nat → List Char → Option (Nat × Nat × List Char)
  | acc, cnt, [] => some (acc, cnt, [])
  | acc, cnt, c :: cs =>
    match dv c with
    | none => some (acc, cnt, c :: cs)
    | some d =>
      let r := acc * radix + d
      if bound ≤ r then none
      else
        match maxD with
        | some m => if m < cnt + 1 then none else readNumCore dv radix bound maxD r (cnt + 1) cs
        | none => readNumCore dv radix bound maxD r (cnt + 1) cs

/-- The std parser's `read_number(radix, max_digits, allow_zero_prefix)`:
at least one digit, no leading zero unless allowed, value within the
checked-arithmetic bound. -/
def readNumber (dv : Char → Option Nat) (radix bound : Nat) (maxD : Option Nat)
    (allowZeroPrefix : Bool) (s : List Char) : Option (Nat × List Char) :=
  let hasLeadingZero := match s with | '0' :: _ => true | _ => false
  match readNumCore dv radix bound maxD 0 0 s with
  | none => none
  | some (v, cnt, rest) =>
    if cnt = 0 then none
    else if !allowZeroPrefix && hasLeadingZero && 1 < cnt then none
    else some (v, rest)

/-- One dotted-quad octet: decimal, at most 3 digits, below 256, no
leading zero. -/
def readOctet (s : List Char) : Option (Nat × List Char) :=
  readNumber digitVal 10 256 (some 3) false s

/-- `read_ipv4_addr`: four octets separated by dots. -/
def readIpv4Chars (s : List Char) : Option ((Nat × Nat × Nat × Nat) × List Char) :=
  match readOctet s with
  | none => none
  | some (a, s1) =>
    match s1 with
    | '.' :: s2 =>
      match readOctet s2 with
      | none => none
      | some (b, s3) =>
        match s3 with
        | '.' :: s4 =>
          match readOctet s4 with
          | none => none
          | some (c, s5) =>
            match s5 with
            | '.' :: s6 =>
              match readOctet s6 with
              | none => none
              | some (d, s7) => some ((a, b, c, d), s7)
            | _ => none
        | _ => none
    | _ => none

/-- `read_groups` of the std IPv6 parser: up to `limit` 16-bit hex
groups, colon-separated (`first` marks the position before the first
group, where no separator is read); at every position with at least two
slots left a trailing embedded dotted-quad is tried first and, when
present, ends the group run (third component `true`).  A failed
group read backtracks to before its separator. -/
def readGroups (first : Bool) : Nat → List Char → List Nat × List Char × Bool
  | 0, s => ([], s, false)
  | limit + 1, s =>
    let sepParsed : Option (List Char) :=
      if first then some s else match s with | ':' :: t => some t | _ => none
    match sepParsed with
    | none => ([], s, false)
    | some t =>
      let v4res : Option (List Nat × List Char) :=
        if 1 ≤ limit then
          match readIpv4Chars t with
          | some ((a, b, c, d), rest) => some ([a * 256 + b, c * 256 + d], rest)
          | none => none
        else none
      match v4res with
      | some (gs, rest) => (gs, rest, true)
      | none =>
        match readNumber hexVal 16 65536 (some 4) true t with
        | none => ([], s, false)
        | some (g, rest) =>
          let next := readGroups false limit rest
          (g :: next.1, next.2.1, next.2.2)

/-- Builds a `v6` address from (exactly) eight segments. -/
def mkV6 (l : List Nat) : IpAddr :=
  match l with
  | [a, b, c, d, e, f, g, h] => .v6 a b c d e f g h
  | _ => .v6 0 0 0 0 0 0 0 0

/-- `read_ipv6_addr`: a full head of eight groups, or a shorter head, a
`::`, and a tail of at most `7 - head` groups (the elided middle is
zero-filled); an embedded dotted-quad may only end the address. -/
def readIpv6Chars (s : List Char) : Option (IpAddr × List Char) :=
  let h := readGroups true 8 s
  if h.1.length = 8 then some (mkV6 h.1, h.2.1)
  else if h.2.2 then none
  else
    match h.2.1 with
    | ':' :: ':' :: s2 =>
      let t := readGroups true (7 - h.1.length) s2
      some (mkV6 (h.1 ++ List.replicate (8 - h.1.length - t.1.length) 0 ++ t.1), t.2.1)
    | _ => none

/-- `"...".parse::<IpAddr>()`: IPv4 first, then IPv6, requiring the
whole string to be consumed. -/
def parseIpAddr (s : String) : Option IpAddr :=
  match readIpv4Chars s.data with
  | some ((a, b, c, d), []) => some (.v4 a b c d)
  | _ =>
    match readIpv6Chars s.data with
    | some (ip, []) => some ip
    | _ => none

/-! ### Display of IP addresses

Models `impl Display for Ipv4Addr / Ipv6Addr` of the Rust standard
library (the `to_string` the repository calls on the masked address). -/

def displayIpv4 (a b c d : Nat) : String :=
  Nat.repr a ++ "." ++ Nat.repr b ++ "." ++ Nat.repr c ++ "." ++ Nat.repr d

/-- One IPv6 segment in lowercase hex without leading zeros. -/
def segHex (n : Nat) : String :=
  (Nat.toDigits 16 n).asString

def IpAddr.segments : IpAddr → List Nat
  | .v4 _ _ _ _ => []
  | .v6 a b c d e f g h => [a, b, c, d, e, f, g, h]

/-- The first, strictly longest run of zero segments: `(start, length)`,
accumulated left to right exactly as std's `fmt` does. -/
def longestZeroRun (segs : List Nat) : Nat × Nat :=
  let step := fun (st : (Nat × Nat) × (Nat × Nat) × Nat) (seg : Nat) =>
    let (longest, cur, i) := st
    if seg = 0 then
      let cur' := if cur.2 = 0 then (i, 1) else (cur.1, cur.2 + 1)
      let longest' := if longest.2 < cur'.2 then cur' else longest
      (longest', cur', i + 1)
    else ((longest, (0, 0), i + 1) : (Nat × Nat) × (Nat × Nat) × Nat)
  (segs.foldl step ((0, 0), (0, 0), 0)).1

def fmtSegs (l : List Nat) : String :=
  String.intercalate ":" (l.map segHex)

/-- `Display` for an IPv6 address: the unspecified/loopback/IPv4-embedded
special cases of the 2020-era std, otherwise compression of the longest
zero-segment run when it spans more than one segment. -/
def displayIpv6 (a b c d e f g h : Nat) : String :=
  if [a, b, c, d, e, f, g, h] = [0, 0, 0, 0, 0, 0, 0, 0] then "::"
  else if [a, b, c, d, e, f, g, h] = [0, 0, 0, 0, 0, 0, 0, 1] then "::1"
  else if [a, b, c, d, e, f] = [0, 0, 0, 0, 0, 0] then
    "::" ++ displayIpv4 (g / 256) (g % 256) (h / 256) (h % 256)
  else if [a, b, c, d, e, f] = [0, 0, 0, 0, 0, 0xffff] then
    "::ffff:" ++ displayIpv4 (g / 256) (g % 256) (h / 256) (h % 256)
  else
    let segs := [a, b, c, d, e, f, g, h]
    let z := longestZeroRun segs
    if 1 < z.2 then fmtSegs (segs.take z.1) ++ "::" ++ fmtSegs (segs.drop (z.1 + z.2))
    else fmtSegs segs

def displayIpAddr : IpAddr → String
  | .v4 a b c d => displayIpv4 a b c d
  | .v6 a b c d e f g h => displayIpv6 a b c d e f g h

/-! ## `ip_subnet.rs` helpers -/

/-- Models `str::starts_with` on strings: byte/character prefix. -/
def strStartsWith (s pre : String) : Bool :=
  pre.data.isPrefixOf s.data

/-- The capture of the regex `/(?P<subnet>\d*)`: scan for the first `/`
and return the (possibly empty) maximal digit run after it. -/
def findSlashDigits : List Char → Option (List Char)
  | [] => none
  | '/' :: rest => some (rest.takeWhile Char.isDigit)
  | _ :: rest => findSlashDigits rest

/-- The numeric value of a digit run (the accumulation performed by
`str::parse::<u32>`, computed without the u32 bound). -/
def digitsToNat (l : List Char) : Nat :=
  l.foldl (fun a c => a * 10 + (c.toNat - 48)) 0

/-- `parse_subnet`: regex capture, then `parse().unwrap()`.  The unwrap
panics when the captured digit run is empty (`ParseIntError: Empty`) or
does not fit in `u32` (`ParseIntError: PosOverflow`). -/
def parse_subnet (s : String) : RTResult Nat :=
  match findSlashDigits s.data with
  | none => .error (s ++ " is not a valid subnet")
  | some ds =>
    if ds = [] then .panicked "called Result::unwrap() on an Err value: ParseIntError: invalid digit found in string (empty capture)"
    else if 4294967295 < digitsToNat ds then .panicked "called Result::unwrap() on an Err value: ParseIntError: number too large to fit in target type"
    else .ok (digitsToNat ds)

/-- `mask_ips`: bitwise AND of address and mask, u32-wide for IPv4 and
per-16-bit-segment for IPv6; a typed failure on a family mismatch. -/
def mask_ips : IpAddr → IpAddr → RTResult IpAddr
  | .v4 a b c d, .v4 ma mb mc md =>
    let addr := ((a * 256 + b) * 256 + c) * 256 + d
    let mask := ((ma * 256 + mb) * 256 + mc) * 256 + md
    let r := Nat.land addr mask
    .ok (.v4 (r / 16777216 % 256) (r / 65536 % 256) (r / 256 % 256) (r % 256))
  | .v6 a b c d e f g h, .v6 ma mb mc md me mf mg mh =>
    .ok (.v6 (Nat.land a ma) (Nat.land b mb) (Nat.land c mc) (Nat.land d md)
             (Nat.land e me) (Nat.land f mf) (Nat.land g mg) (Nat.land h mh))
  | .v6 _ _ _ _ _ _ _ _, .v4 _ _ _ _ =>
    .error "attempting to mask an ipv6 address with an ipv4 mask"
  | .v4 _ _ _ _, .v6 _ _ _ _ _ _ _ _ =>
    .error "attempting to mask an ipv4 address with an ipv6 mask"

/-- The `while subnet_bits > 0` loop of `get_mask_bits`, written with an
explicit fuel argument (the loop strictly decreases `subnet_bits` by at
least one per iteration, so `subnet_bits` itself is sufficient fuel and
the two functions compute the same list). -/
def maskLoop : Nat → Nat → List Nat
  | 0, _ => []
  | _ + 1, 0 => []
  | fuel + 1, sb + 1 =>
    let bits := min (sb + 1) 8
    (255 - (2 ^ (8 - bits) - 1)) :: maskLoop fuel (sb + 1 - bits)

/-- `get_mask_bits(subnet_bits, bytes)`: the leftmost `subnet_bits` bits
set, eight per byte, zero-padded up to `bytes` bytes. -/
def get_mask_bits (subnet_bits : Nat) (bytes : Nat) : List Nat :=
  let mask := maskLoop subnet_bits subnet_bits
  mask ++ List.replicate (bytes - mask.length) 0

/-- `ipv4_addr`: a 4-byte vector as an IPv4 address. -/
def ipv4_addr (v : List Nat) : IpAddr :=
  match v with
  | [a, b, c, d] => .v4 a b c d
  | _ => .v4 0 0 0 0

/-- `ipv6_addr`: a 16-byte vector as an IPv6 address (big-endian byte
pairs per segment). -/
def ipv6_addr (v : List Nat) : IpAddr :=
  match v with
  | [b0, b1, b2, b3, b4, b5, b6, b7, b8, b9, b10, b11, b12, b13, b14, b15] =>
    .v6 (b0 * 256 + b1) (b2 * 256 + b3) (b4 * 256 + b5) (b6 * 256 + b7)
        (b8 * 256 + b9) (b10 * 256 + b11) (b12 * 256 + b13) (b14 * 256 + b15)
  | _ => .v6 0 0 0 0 0 0 0 0

/-- The `let mask = if mask.starts_with("/") ... else ...` step of
`IpSubnetFn::execute`: prefix form builds the family mask after the
bit-width check, otherwise the specifier is parsed as a literal mask. -/
def resolveMask (value : IpAddr) (mask : String) : RTResult IpAddr :=
  if strStartsWith mask "/" then
    match parse_subnet mask with
    | .ok subnet =>
      match value with
      | .v4 _ _ _ _ =>
        if 32 < subnet then .error "subnet cannot be greater than 32 for ipv4 addresses"
        else .ok (ipv4_addr (get_mask_bits subnet 4))
      | .v6 _ _ _ _ _ _ _ _ =>
        if 128 < subnet then .error "subnet cannot be greater than 128 for ipv6 addresses"
        else .ok (ipv6_addr (get_mask_bits subnet 16))
    | .error e => .error e
    | .panicked p => .panicked p
  else
    match parseIpAddr mask with
    | some m => .ok m
    | none => .error "unable to parse mask: invalid IP address syntax"

/-- The value-level pipeline of `IpSubnetFn::execute` once both operands
have been coerced to strings: parse the address, resolve the mask, AND
them, format the result. -/
def ipSubnetRun (value mask : String) : RTResult String :=
  match parseIpAddr value with
  | none => .error "unable to parse IP address: invalid IP address syntax"
  | some ip => ((resolveMask ip mask).bind (mask_ips ip)).map displayIpAddr

/-- The message of the `required!` coercion failure when an operand is
not a string (remap-lang macro; exact text immaterial to the claims). -/
def unexpectedKind (v : Value) : String :=
  "unexpected value kind (got " ++ reprStr v.kindOf ++ ")"

/-- The `ip_subnet` function node: the two operand expressions. -/
structure IpSubnetFn (P O C : Type) where
  value : Expression P O C
  subnet : Expression P O C

/-- `IpSubnetFn::execute`: evaluate and coerce the address operand, parse
it (failures return before the subnet operand runs), then evaluate and
coerce the subnet operand and run the masking pipeline. -/
def IpSubnetFn.exec {P O C : Type} (fn : IpSubnetFn P O C) (st : P) (o : O) :
    RTResult Value × P × O :=
  match fn.value.exec st o with
  | (.ok (.str vs), st1, o1) =>
    match parseIpAddr vs with
    | none => (.error "unable to parse IP address: invalid IP address syntax", st1, o1)
    | some ip =>
      match fn.subnet.exec st1 o1 with
      | (.ok (.str ms), st2, o2) =>
        (((resolveMask ip ms).bind (mask_ips ip)).map (fun r => Value.str (displayIpAddr r)), st2, o2)
      | (.ok v, st2, o2) => (.error (unexpectedKind v), st2, o2)
      | (r, st2, o2) => (r, st2, o2)
  | (.ok v, st1, o1) => (.error (unexpectedKind v), st1, o1)
  | (r, st1, o1) => (r, st1, o1)

/-- `IpSubnetFn::type_def`: each operand's `TypeDef` goes through
`fallible_unless(String)`, the two are merged, and the result kind is
constrained to String. -/
def IpSubnetFn.tdef {P O C : Type} (fn : IpSubnetFn P O C) (c : C) : TypeDef :=
  (((fn.value.tdef c).fallibleUnless Kind.stringOnly).merge
      ((fn.subnet.tdef c).fallibleUnless Kind.stringOnly)).withConstraint Kind.stringOnly

/-! ## `not.rs` -/

/-- `Value::try_boolean`: the boolean payload, or a value error naming
the mismatch. -/
def try_boolean : Value → Except String Bool
  | .boolean b => .ok b
  | v => .error ("invalid value kind: expected boolean, got " ++ reprStr v.kindOf)

/-- The `Not` expression node (named `NotExpr` here because `Not` is
taken by Lean's core logic). -/
structure NotExpr (P O C : Type) where
  expression : Expression P O C

/-- `Not::execute`: run the operand, coerce to boolean, negate. -/
def NotExpr.exec {P O C : Type} (n : NotExpr P O C) (st : P) (o : O) :
    RTResult Value × P × O :=
  match n.expression.exec st o with
  | (.ok v, st1, o1) =>
    match try_boolean v with
    | .ok b => (.ok (.boolean (!b)), st1, o1)
    | .error e => (.error e, st1, o1)
  | (r, st1, o1) => (r, st1, o1)

/-- `Not::type_def`: statically `{fallible: true, optional: true,
kind: Boolean}`, whatever the operand and the compiler state. -/
def NotExpr.tdef {P O C : Type} (_ : NotExpr P O C) (_ : C) : TypeDef :=
  ⟨true, true, Kind.booleanOnly⟩

/-! ## `only_fields.rs` -/

/-- Modelled from the spec: the record accessor (`Object`) consumed by
`OnlyFieldsFn::execute`.  Its implementation is external to the provided
sources, so the record is modelled by its contract: the list of
currently-populated paths (as dotted strings, the form `paths()` hands
to the string prefix test), where the populated paths are the leaves of
the record's tree (no populated path is a dot-ancestor of another). -/
structure Record where
  pathsL : List String
deriving DecidableEq, Repr

/-- `Object::paths()`: every currently-populated path. -/
def Record.paths (r : Record) : List String :=
  r.pathsL

/-- Modelled from the spec: `Object::remove(path, recursive)` removes
the path and, recursively, its descendants (paths below the dot
boundary). -/
def Record.remove (r : Record) (p : String) (recursive : Bool) : Record :=
  ⟨r.pathsL.filter (fun k => !(k == p || (recursive && strStartsWith k (p ++ "."))))⟩

/-- The record invariant guaranteed by the accessor contract: `paths()`
enumerates leaves, so no populated path is a dot-ancestor of another. -/
def Record.leafPaths (r : Record) : Prop :=
  ∀ p ∈ r.pathsL, ∀ k ∈ r.pathsL, strStartsWith k (p ++ ".") = false

instance (r : Record) : Decidable r.leafPaths := by
  unfold Record.leafPaths; infer_instance

/-- The `only_fields` function node: the retained paths (a `Path` enters
the prefix test only through `Path::as_string`, so paths are modelled by
their dotted string form). -/
structure OnlyFieldsFn where
  paths : List String
deriving DecidableEq, Repr

/-- The record mutation of `OnlyFieldsFn::execute`: enumerate the
record's paths, keep those with a retained path as a string prefix, and
recursively remove each of the others. -/
def OnlyFieldsFn.run (fn : OnlyFieldsFn) (r : Record) : Record :=
  let paths := fn.paths
  ((r.paths).filter
      (fun k => (paths.find? (fun p => strStartsWith k p)).isNone)).foldl
    (fun acc path => acc.remove path true) r

/-- `OnlyFieldsFn::execute`: mutate the record, always return `Null`. -/
def OnlyFieldsFn.exec {P : Type} (fn : OnlyFieldsFn) (st : P) (o : Record) :
    RTResult Value × P × Record :=
  (.ok .null, st, fn.run o)

/-- `OnlyFieldsFn::type_def`: `{fallible: false, kind: Null}`. -/
def OnlyFieldsFn.tdef {C : Type} (_ : OnlyFieldsFn) (_ : C) : TypeDef :=
  ⟨false, false, Kind.nullOnly⟩

/-! ### `OnlyFields::parameters` and `OnlyFields::compile` -/

/-- A declared parameter: keyword, acceptance predicate, required flag. -/
structure Parameter where
  keyword : String
  accepts : Value → Bool
  required : Bool

/-- The sixteen keywords `"1"` … `"16"`. -/
def onlyFieldsKeywords : List String :=
  ["1", "2", "3", "4", "5", "6", "7", "8", "9", "10", "11", "12", "13", "14", "15", "16"]

/-- `OnlyFields::parameters()` (the `generate_param_list!` expansion):
all sixteen keywords, each accepting every value and not required. -/
def OnlyFields.parameters : List Parameter :=
  onlyFieldsKeywords.map (fun k => ⟨k, fun _ => true, false⟩)

/-- Modelled from the spec: the shape of an argument supplied to
`OnlyFields` as seen by `ArgumentList` path resolution — either an
expression that resolves to a Path literal, or any other expression. -/
inductive ArgShape where
  | pathLit (p : String)
  | nonPath
deriving DecidableEq, Repr

/-- Modelled from the spec: `ArgumentList`, a compile-time mapping from
keyword to the supplied expression. -/
def ArgumentList := List (String × ArgShape)

/-- Modelled from the spec: `ArgumentList::required_path` fails with a
compile error when the keyword is absent or the supplied expression does
not resolve to a Path literal. -/
def required_path (args : ArgumentList) (k : String) : Except String String :=
  match List.lookup k args with
  | none => .error ("required argument missing: " ++ k)
  | some (.pathLit p) => .ok p
  | some .nonPath => .error ("argument must resolve to a path literal: " ++ k)

/-- Modelled from the spec: `ArgumentList::optional_path` returns `none`
for an absent keyword and fails when a supplied expression does not
resolve to a Path literal. -/
def optional_path (args : ArgumentList) (k : String) : Except String (Option String) :=
  match List.lookup k args with
  | none => .ok none
  | some (.pathLit p) => .ok (some p)
  | some .nonPath => .error ("argument must resolve to a path literal: " ++ k)

/-- The `for i in 2..=16` loop of `OnlyFields::compile`: push each
present optional path in keyword order, aborting on the first error. -/
def collectOptionalPaths (args : ArgumentList) : List String → Except String (List String)
  | [] => .ok []
  | k :: ks =>
    match optional_path args k with
    | .error e => .error e
    | .ok none => collectOptionalPaths args ks
    | .ok (some p) =>
      match collectOptionalPaths args ks with
      | .error e => .error e
      | .ok ps => .ok (p :: ps)

/-- `OnlyFields::compile`: keyword `"1"` is resolved with
`required_path`, keywords `"2"`…`"16"` with `optional_path`; on success
the node holds the resolved paths in keyword order. -/
def OnlyFields.compile (args : ArgumentList) : Except String OnlyFieldsFn :=
  match required_path args "1" with
  | .error e => .error e
  | .ok p1 =>
    match collectOptionalPaths args (onlyFieldsKeywords.drop 1) with
    | .error e => .error e
    | .ok ps => .ok ⟨p1 :: ps⟩

/-! ## Helper lemmas -/

/-- `IpSubnetFn::execute` on two string literals runs the value pipeline
on the two payloads and leaves state and object untouched. -/
theorem ipSubnetFn_lit_exec {P O C : Type} (a m : String) (st : P) (o : O) :
    (IpSubnetFn.mk (litExpr (.str a)) (litExpr (.str m)) : IpSubnetFn P O C).exec st o
      = ((ipSubnetRun a m).map Value.str, st, o) := by
  simp only [IpSubnetFn.exec, litExpr, ipSubnetRun]
  cases hp : parseIpAddr a with
  | none => simp [hp, RTResult.map]
  | some ip =>
    simp only [hp]
    cases (resolveMask ip m).bind (mask_ips ip) <;> rfl

theorem digitVal_slash : digitVal '/' = none := rfl

theorem hexVal_slash : hexVal '/' = none := rfl

theorem readOctet_slash (rest : List Char) : readOctet ('/' :: rest) = none := by
  simp [readOctet, readNumber, readNumCore, digitVal_slash]

theorem readIpv4Chars_slash (rest : List Char) : readIpv4Chars ('/' :: rest) = none := by
  simp [readIpv4Chars, readOctet_slash]

/-- No string beginning with `/` parses as an IP address. -/
theorem parseIpAddr_cons_slash (rest : List Char) (m : String) (hm : m.data = '/' :: rest) :
    parseIpAddr m = none := by
  unfold parseIpAddr
  rw [hm, readIpv4Chars_slash]
  unfold readIpv6Chars readGroups
  simp [readIpv4Chars_slash, readNumber, readNumCore, hexVal_slash]

/-- A string that parses as an IP address does not begin with `/`. -/
theorem parse_some_not_slash (m : String) (ip : IpAddr) (h : parseIpAddr m = some ip) :
    strStartsWith m "/" = false := by
  cases hm : m.data with
  | nil => simp [strStartsWith, hm, List.isPrefixOf]
  | cons c rest =>
    by_cases hc : c = '/'
    · subst hc
      rw [parseIpAddr_cons_slash rest m hm] at h
      cases h
    · simp [strStartsWith, hm, List.isPrefixOf]
      intro he
      exact absurd he.symm hc

/-- A specifier built as `/` followed by anything starts with `/`. -/
theorem slash_append_startsWith (s : String) : strStartsWith ("/" ++ s) "/" = true := by
  simp [strStartsWith, String.data_append, List.isPrefixOf]

/-- `parse_subnet` on `/` followed by a pure nonempty digit run yields
the run's numeric value (when it fits in `u32`). -/
theorem parse_subnet_digits (ds : List Char) (hne : ds ≠ [])
    (hdig : ∀ c ∈ ds, c.isDigit) (hbound : digitsToNat ds ≤ 4294967295) :
    parse_subnet ("/" ++ String.mk ds) = .ok (digitsToNat ds) := by
  unfold parse_subnet
  have hdata : ("/" ++ String.mk ds).data = '/' :: ds := by
    simp [String.data_append]
  rw [hdata]
  simp only [findSlashDigits]
  rw [List.takeWhile_eq_self_iff.mpr hdig]
  simp [hne, Nat.not_lt.mpr hbound]

/-- The bit width of an address's family: 32 for IPv4, 128 for IPv6. -/
def ipBitWidth : IpAddr → Nat
  | .v4 _ _ _ _ => 32
  | .v6 _ _ _ _ _ _ _ _ => 128

/-- The mask whose leftmost `N` bits are set, in the family of `ip`
(the mask `execute` builds for the prefix form `/N`). -/
def familyMask (ip : IpAddr) (N : Nat) : IpAddr :=
  match ip with
  | .v4 _ _ _ _ => ipv4_addr (get_mask_bits N 4)
  | .v6 _ _ _ _ _ _ _ _ => ipv6_addr (get_mask_bits N 16)

/-- `parse_subnet` recovers every in-range prefix length from its
decimal rendering. -/
theorem parse_subnet_slash_repr : ∀ N, N < 129 → parse_subnet ("/" ++ Nat.repr N) = .ok N := by
  decide

/-- Formatting any in-range IPv4 prefix mask and parsing it back is the
identity, and the formatted mask does not begin with a slash. -/
theorem v4mask_roundtrip : ∀ N, N < 33 →
    parseIpAddr (displayIpAddr (ipv4_addr (get_mask_bits N 4)))
        = some (ipv4_addr (get_mask_bits N 4))
      ∧ strStartsWith (displayIpAddr (ipv4_addr (get_mask_bits N 4))) "/" = false := by
  decide

/-- Formatting any in-range IPv6 prefix mask and parsing it back is the
identity, and the formatted mask does not begin with a slash. -/
theorem v6mask_roundtrip : ∀ N, N < 129 →
    parseIpAddr (displayIpAddr (ipv6_addr (get_mask_bits N 16)))
        = some (ipv6_addr (get_mask_bits N 16))
      ∧ strStartsWith (displayIpAddr (ipv6_addr (get_mask_bits N 16))) "/" = false := by
  decide

/-! ## Claim theorems -/

/-- C1: The soundness design rule fails for `IpSubnetFn`.  With two
operand expressions whose static `TypeDef`s are exactly String (so
`IpSubnetFn::type_def` reports `fallible = false`), `execute` on the
runtime input consistent with those type facts — the address operand is
the string `"invalid"` — returns a failure: `type_def` is an unsound
under-approximation of `execute`'s fallibility. -/
theorem ip_subnet_type_def_unsound :
    (((litExpr (Value.str "invalid") : Expression Unit Unit Unit).tdef ()).kind = Kind.stringOnly
        ∧ ((litExpr (Value.str "invalid") : Expression Unit Unit Unit).tdef ()).fallible = false)
    ∧ (((litExpr (Value.str "/16") : Expression Unit Unit Unit).tdef ()).kind = Kind.stringOnly
        ∧ ((litExpr (Value.str "/16") : Expression Unit Unit Unit).tdef ()).fallible = false)
    ∧ ((IpSubnetFn.mk (litExpr (.str "invalid")) (litExpr (.str "/16"))
          : IpSubnetFn Unit Unit Unit).tdef ()).fallible = false
    ∧ (((IpSubnetFn.mk (litExpr (.str "invalid")) (litExpr (.str "/16"))
          : IpSubnetFn Unit Unit Unit).exec () ()).1
        = .error "unable to parse IP address: invalid IP address syntax") := by
  decide

/-- C2: On the malformed subnet specifiers `"/"` and `"/abc"` (a slash
followed by no digits), `IpSubnetFn::execute` does not return a typed
failure: the `parse().unwrap()` in `parse_subnet` panics on the empty
digit capture, crashing the call instead of surfacing an error. -/
theorem ip_subnet_empty_subnet_digits_panic :
    (((IpSubnetFn.mk (litExpr (.str "192.168.10.23")) (litExpr (.str "/"))
          : IpSubnetFn Unit Unit Unit).exec () ()).1
        = .panicked "called Result::unwrap() on an Err value: ParseIntError: invalid digit found in string (empty capture)")
    ∧ RTResult.isErr
        (((IpSubnetFn.mk (litExpr (.str "192.168.10.23")) (litExpr (.str "/"))
            : IpSubnetFn Unit Unit Unit).exec () ()).1) = false
    ∧ (((IpSubnetFn.mk (litExpr (.str "192.168.10.23")) (litExpr (.str "/abc"))
          : IpSubnetFn Unit Unit Unit).exec () ()).1
        = .panicked "called Result::unwrap() on an Err value: ParseIntError: invalid digit found in string (empty capture)")
    ∧ RTResult.isErr
        (((IpSubnetFn.mk (litExpr (.str "192.168.10.23")) (litExpr (.str "/abc"))
            : IpSubnetFn Unit Unit Unit).exec () ()).1) = false := by
  decide

/-- C4: the five concrete `ip_subnet` equalities of the specification,
via `IpSubnetFn::execute` on literal operands. -/
theorem ip_subnet_examples :
    ((IpSubnetFn.mk (litExpr (.str "192.168.10.23")) (litExpr (.str "255.255.0.0"))
        : IpSubnetFn Unit Unit Unit).exec () ()).1 = .ok (.str "192.168.0.0")
    ∧ ((IpSubnetFn.mk (litExpr (.str "192.168.10.23")) (litExpr (.str "/16"))
        : IpSubnetFn Unit Unit Unit).exec () ()).1 = .ok (.str "192.168.0.0")
    ∧ ((IpSubnetFn.mk (litExpr (.str "192.168.10.23")) (litExpr (.str "/12"))
        : IpSubnetFn Unit Unit Unit).exec () ()).1 = .ok (.str "192.160.0.0")
    ∧ ((IpSubnetFn.mk (litExpr (.str "2404:6800:4003:c02::64")) (litExpr (.str "ff00::"))
        : IpSubnetFn Unit Unit Unit).exec () ()).1 = .ok (.str "2400::")
    ∧ ((IpSubnetFn.mk (litExpr (.str "2404:6800:4003:c02::64")) (litExpr (.str "/32"))
        : IpSubnetFn Unit Unit Unit).exec () ()).1 = .ok (.str "2404:6800::") := by
  decide

/-- C10: a malformed subnet specifier with trailing non-digits after the
digits, such as `"/16abc"`, is silently accepted: the regex capture
keeps only the leading digit run, so the call succeeds with the same
result as `"/16"`. -/
theorem ip_subnet_trailing_junk_accepted :
    parse_subnet "/16abc" = .ok 16
    ∧ ((IpSubnetFn.mk (litExpr (.str "192.168.10.23")) (litExpr (.str "/16abc"))
          : IpSubnetFn Unit Unit Unit).exec () ())
      = ((IpSubnetFn.mk (litExpr (.str "192.168.10.23")) (litExpr (.str "/16"))
          : IpSubnetFn Unit Unit Unit).exec () ())
    ∧ RTResult.isErr
        (((IpSubnetFn.mk (litExpr (.str "192.168.10.23")) (litExpr (.str "/16abc"))
            : IpSubnetFn Unit Unit Unit).exec () ()).1) = false := by
  decide

/-- The bit-level reading of `get_mask_bits N B`: exactly `B` bytes, and
bit `j` (most significant first) of byte `i` is set iff `8*i + j < N`. -/
def maskBytesSpec (N B : Nat) : Prop :=
  (get_mask_bits N B).length = B
  ∧ ∀ i < B, ∀ j < 8, ((get_mask_bits N B).getD i 0).testBit (7 - j) = decide (8 * i + j < N)

instance (N B : Nat) : Decidable (maskBytesSpec N B) := by
  unfold maskBytesSpec; infer_instance

/-- C7: for both byte widths (4 and 16) and every in-range subnet-bit
count, `get_mask_bits` yields exactly the width's bytes with the
leftmost `N` bits set and the rest clear; in particular the four
concrete vectors of the specification. -/
theorem get_mask_bits_spec :
    (∀ N, N ≤ 32 → maskBytesSpec N 4)
    ∧ (∀ N, N ≤ 128 → maskBytesSpec N 16)
    ∧ get_mask_bits 12 4 = [255, 240, 0, 0]
    ∧ get_mask_bits 16 4 = [255, 255, 0, 0]
    ∧ get_mask_bits 9 4 = [255, 128, 0, 0]
    ∧ get_mask_bits 64 16 = [255, 255, 255, 255, 255, 255, 255, 255, 0, 0, 0, 0, 0, 0, 0, 0] := by
  decide

/-- Witness for C7 at a concrete in-range input. -/
theorem get_mask_bits_spec_witness : maskBytesSpec 12 4 ∧ maskBytesSpec 64 16 :=
  ⟨get_mask_bits_spec.1 12 (by decide), get_mask_bits_spec.2.1 64 (by decide)⟩

/-- C5: `IpSubnetFn::execute` returns a typed failure whenever the
parsed address and the parsed literal mask belong to different IP
families, and whenever a prefix-form specifier's digits denote a value
above the family's bit width (32 / 128) that still fits in `u32`.  For
a prefix length beyond `u32` (final conjunct, `/4294967296 > 32`) the
call panics in `parse_subnet` instead of returning the typed error the
claim demands. -/
theorem ip_subnet_failure_conditions {P O C : Type} (st : P) (o : O) :
    (∀ a m ipa ipm, parseIpAddr a = some ipa → parseIpAddr m = some ipm →
        ipa.isV4 ≠ ipm.isV4 →
        RTResult.isErr (((IpSubnetFn.mk (litExpr (.str a)) (litExpr (.str m))
            : IpSubnetFn P O C).exec st o).1) = true)
    ∧ (∀ a x1 x2 x3 x4 ds, parseIpAddr a = some (.v4 x1 x2 x3 x4) → ds ≠ [] →
        (∀ c ∈ ds, c.isDigit) → 32 < digitsToNat ds → digitsToNat ds ≤ 4294967295 →
        (((IpSubnetFn.mk (litExpr (.str a)) (litExpr (.str ("/" ++ String.mk ds)))
            : IpSubnetFn P O C).exec st o).1
          = .error "subnet cannot be greater than 32 for ipv4 addresses"))
    ∧ (∀ a s1 s2 s3 s4 s5 s6 s7 s8 ds,
        parseIpAddr a = some (.v6 s1 s2 s3 s4 s5 s6 s7 s8) → ds ≠ [] →
        (∀ c ∈ ds, c.isDigit) → 128 < digitsToNat ds → digitsToNat ds ≤ 4294967295 →
        (((IpSubnetFn.mk (litExpr (.str a)) (litExpr (.str ("/" ++ String.mk ds)))
            : IpSubnetFn P O C).exec st o).1
          = .error "subnet cannot be greater than 128 for ipv6 addresses"))
    ∧ (((IpSubnetFn.mk (litExpr (.str "192.168.10.23")) (litExpr (.str "/4294967296"))
          : IpSubnetFn P O C).exec st o).1
        = .panicked "called Result::unwrap() on an Err value: ParseIntError: number too large to fit in target type") := by
  refine ⟨?_, ?_, ?_, ?_⟩
  · intro a m ipa ipm ha hm hfam
    rw [ipSubnetFn_lit_exec]
    simp only
    unfold ipSubnetRun
    rw [ha]
    unfold resolveMask
    rw [parse_some_not_slash m ipm hm]
    simp only [Bool.false_eq_true, if_false, hm]
    cases ipa with
    | v4 a1 a2 a3 a4 =>
      cases ipm with
      | v4 b1 b2 b3 b4 => simp [IpAddr.isV4] at hfam
      | v6 b1 b2 b3 b4 b5 b6 b7 b8 =>
        simp [mask_ips, RTResult.bind, RTResult.map, RTResult.isErr]
    | v6 a1 a2 a3 a4 a5 a6 a7 a8 =>
      cases ipm with
      | v4 b1 b2 b3 b4 =>
        simp [mask_ips, RTResult.bind, RTResult.map, RTResult.isErr]
      | v6 b1 b2 b3 b4 b5 b6 b7 b8 => simp [IpAddr.isV4] at hfam
  · intro a x1 x2 x3 x4 ds ha hne hdig hgt hbound
    rw [ipSubnetFn_lit_exec]
    simp only
    unfold ipSubnetRun
    rw [ha]
    unfold resolveMask
    rw [slash_append_startsWith, parse_subnet_digits ds hne hdig hbound]
    simp [hgt, RTResult.bind, RTResult.map]
  · intro a s1 s2 s3 s4 s5 s6 s7 s8 ds ha hne hdig hgt hbound
    rw [ipSubnetFn_lit_exec]
    simp only
    unfold ipSubnetRun
    rw [ha]
    unfold resolveMask
    rw [slash_append_startsWith, parse_subnet_digits ds hne hdig hbound]
    simp [hgt, RTResult.bind, RTResult.map]
  · rw [ipSubnetFn_lit_exec]
    simp only
    decide

/-- Witness for C5: a concrete family mismatch, concrete out-of-range
prefix lengths for both families, and the concrete panicking input. -/
theorem ip_subnet_failure_conditions_witness :
    RTResult.isErr (((IpSubnetFn.mk (litExpr (.str "1.2.3.4")) (litExpr (.str "ff00::"))
        : IpSubnetFn Unit Unit Unit).exec () ()).1) = true
    ∧ (((IpSubnetFn.mk (litExpr (.str "1.2.3.4")) (litExpr (.str "/33"))
        : IpSubnetFn Unit Unit Unit).exec () ()).1
      = .error "subnet cannot be greater than 32 for ipv4 addresses")
    ∧ (((IpSubnetFn.mk (litExpr (.str "ff00::")) (litExpr (.str "/129"))
        : IpSubnetFn Unit Unit Unit).exec () ()).1
      = .error "subnet cannot be greater than 128 for ipv6 addresses") := by
  refine ⟨?_, ?_, ?_⟩
  · exact (ip_subnet_failure_conditions () ()).1 "1.2.3.4" "ff00::" (.v4 1 2 3 4)
      (.v6 0xff00 0 0 0 0 0 0 0) (by decide) (by decide) (by decide)
  · exact (ip_subnet_failure_conditions () ()).2.1 "1.2.3.4" 1 2 3 4 ['3', '3']
      (by decide) (by decide) (by decide) (by decide) (by decide)
  · exact (ip_subnet_failure_conditions () ()).2.2.1 "ff00::" 0xff00 0 0 0 0 0 0 0
      ['1', '2', '9'] (by decide) (by decide) (by decide) (by decide) (by decide)

/-- C8: masking an address by the prefix form `/N` (N within the
family's range) and by the literal mask string obtained by formatting
the N-bit prefix mask of that family yield identical results of
`IpSubnetFn::execute`. -/
theorem ip_subnet_prefix_literal_roundtrip {P O C : Type} (st : P) (o : O)
    (a : String) (ip : IpAddr) (N : Nat)
    (hp : parseIpAddr a = some ip) (hN : N ≤ ipBitWidth ip) :
    (IpSubnetFn.mk (litExpr (.str a)) (litExpr (.str ("/" ++ Nat.repr N)))
        : IpSubnetFn P O C).exec st o
      = (IpSubnetFn.mk (litExpr (.str a))
          (litExpr (.str (displayIpAddr (familyMask ip N)))) : IpSubnetFn P O C).exec st o := by
  rw [ipSubnetFn_lit_exec, ipSubnetFn_lit_exec]
  suffices h : ipSubnetRun a ("/" ++ Nat.repr N) = ipSubnetRun a (displayIpAddr (familyMask ip N)) by
    rw [h]
  suffices h : resolveMask ip ("/" ++ Nat.repr N) = .ok (familyMask ip N)
      ∧ resolveMask ip (displayIpAddr (familyMask ip N)) = .ok (familyMask ip N) by
    unfold ipSubnetRun
    rw [hp]
    show RTResult.map displayIpAddr ((resolveMask ip ("/" ++ Nat.repr N)).bind (mask_ips ip))
        = RTResult.map displayIpAddr
            ((resolveMask ip (displayIpAddr (familyMask ip N))).bind (mask_ips ip))
    rw [h.1, h.2]
  constructor
  · unfold resolveMask
    rw [slash_append_startsWith]
    cases ip with
    | v4 a1 a2 a3 a4 =>
      rw [parse_subnet_slash_repr N (by simp [ipBitWidth] at hN; omega)]
      simp [ipBitWidth] at hN
      simp [familyMask, Nat.not_lt.mpr hN]
    | v6 a1 a2 a3 a4 a5 a6 a7 a8 =>
      rw [parse_subnet_slash_repr N (by simp [ipBitWidth] at hN; omega)]
      simp [ipBitWidth] at hN
      simp [familyMask, Nat.not_lt.mpr hN]
  · cases ip with
    | v4 a1 a2 a3 a4 =>
      have h := v4mask_roundtrip N (by simp [ipBitWidth] at hN; omega)
      simp only [familyMask]
      unfold resolveMask
      rw [h.2, h.1]
      simp
    | v6 a1 a2 a3 a4 a5 a6 a7 a8 =>
      have h := v6mask_roundtrip N (by simp [ipBitWidth] at hN; omega)
      simp only [familyMask]
      unfold resolveMask
      rw [h.2, h.1]
      simp

/-- Witness for C8: the IPv4 address `192.168.10.23` with `/16` against
the literal mask it denotes, and the IPv6 address `2404:6800:4003:c02::64`
with `/32` against its literal mask. -/
theorem ip_subnet_prefix_literal_roundtrip_witness :
    ((IpSubnetFn.mk (litExpr (.str "192.168.10.23")) (litExpr (.str ("/" ++ Nat.repr 16)))
        : IpSubnetFn Unit Unit Unit).exec () ()
      = (IpSubnetFn.mk (litExpr (.str "192.168.10.23"))
          (litExpr (.str (displayIpAddr (familyMask (.v4 192 168 10 23) 16))))
          : IpSubnetFn Unit Unit Unit).exec () ())
    ∧ ((IpSubnetFn.mk (litExpr (.str "2404:6800:4003:c02::64")) (litExpr (.str ("/" ++ Nat.repr 32)))
        : IpSubnetFn Unit Unit Unit).exec () ()
      = (IpSubnetFn.mk (litExpr (.str "2404:6800:4003:c02::64"))
          (litExpr (.str (displayIpAddr
            (familyMask (.v6 0x2404 0x6800 0x4003 0xc02 0 0 0 0x64) 32))))
          : IpSubnetFn Unit Unit Unit).exec () ()) :=
  ⟨ip_subnet_prefix_literal_roundtrip () () "192.168.10.23" (.v4 192 168 10 23) 16
      (by decide) (by decide),
   ip_subnet_prefix_literal_roundtrip () () "2404:6800:4003:c02::64"
      (.v6 0x2404 0x6800 0x4003 0xc02 0 0 0 0x64) 32 (by decide) (by decide)⟩


/-- Folding recursive removes over a list of paths filters the record by
the conjunction of the per-path removal conditions. -/
theorem foldl_remove_pathsL (ds : List String) (r : Record) :
    (ds.foldl (fun acc p => acc.remove p true) r).pathsL
      = r.pathsL.filter
          (fun k => ds.all (fun d => !(k == d || strStartsWith k (d ++ ".")))) := by
  induction ds generalizing r with
  | nil => simp
  | cons d ds ih =>
    rw [List.foldl_cons, ih]
    simp only [Record.remove, List.filter_filter]
    apply List.filter_congr
    intro k _
    simp only [List.all_cons]
    rw [Bool.true_and, Bool.and_comm]

/-- C3: on any record (whose populated paths are leaves, per the record
accessor contract) and any retained-path list, `OnlyFieldsFn::execute`
succeeds with `Null`, keeps exactly the present paths having some
retained path as a string prefix and removes all others; its `type_def`
is non-fallible with kind Null; and the concrete record
`{foo, bar.baz, bar.qux}` retains exactly `bar.baz`. -/
theorem only_fields_spec {P C : Type} (st : P) (cst : C) (r : Record) (fn : OnlyFieldsFn)
    (hwf : r.leafPaths) (hne : fn.paths ≠ []) :
    (fn.exec st r).1 = .ok Value.null
    ∧ (fn.exec st r).2.2.pathsL
        = r.pathsL.filter (fun k => (fn.paths.find? (fun p => strStartsWith k p)).isSome)
    ∧ (fn.tdef cst).fallible = false ∧ (fn.tdef cst).kind = Kind.nullOnly
    ∧ (OnlyFieldsFn.mk ["bar.baz"]).exec st (Record.mk ["foo", "bar.baz", "bar.qux"])
        = (.ok Value.null, st, Record.mk ["bar.baz"]) := by
  refine ⟨rfl, ?_, rfl, rfl, rfl⟩
  show (fn.run r).pathsL = _
  unfold OnlyFieldsFn.run Record.paths
  rw [foldl_remove_pathsL]
  apply List.filter_congr
  intro k hk
  cases hfind : (fn.paths.find? (fun p => strStartsWith k p)).isSome with
  | true =>
    rw [List.all_eq_true]
    intro d hd
    rw [List.mem_filter] at hd
    have hne2 : (k == d) = false := by
      cases hbe : k == d with
      | false => rfl
      | true =>
        have hkd : k = d := eq_of_beq hbe
        subst hkd
        cases hopt : List.find? (fun p => strStartsWith k p) fn.paths with
        | none => rw [hopt] at hfind; simp at hfind
        | some p => have h2 := hd.2; rw [hopt] at h2; simp at h2
    rw [hne2, hwf d hd.1 k hk]
    rfl
  | false =>
    have hmem : k ∈ r.pathsL.filter
        (fun k2 => ((fn.paths.find? (fun p => strStartsWith k2 p)).isNone : Bool)) := by
      rw [List.mem_filter]
      refine ⟨hk, ?_⟩
      cases hopt : List.find? (fun p => strStartsWith k p) fn.paths with
      | none => rfl
      | some p => rw [hopt] at hfind; simp at hfind
    cases hall : (r.pathsL.filter
        (fun k2 => ((fn.paths.find? (fun p => strStartsWith k2 p)).isNone : Bool))).all
          (fun d => !(k == d || strStartsWith k (d ++ "."))) with
    | false => rfl
    | true =>
      have := List.all_eq_true.mp hall k hmem
      simp at this

/-- Witness for C3: the concrete record and retained path of the
specification's example. -/
theorem only_fields_spec_witness :
    ((OnlyFieldsFn.mk ["bar.baz"]).exec () (Record.mk ["foo", "bar.baz", "bar.qux"])).1
        = .ok Value.null
    ∧ ((OnlyFieldsFn.mk ["bar.baz"]).exec () (Record.mk ["foo", "bar.baz", "bar.qux"])).2.2.pathsL
        = (Record.mk ["foo", "bar.baz", "bar.qux"]).pathsL.filter
            (fun k => ((OnlyFieldsFn.mk ["bar.baz"]).paths.find?
              (fun p => strStartsWith k p)).isSome) := by
  have h := only_fields_spec () () (Record.mk ["foo", "bar.baz", "bar.qux"])
    (OnlyFieldsFn.mk ["bar.baz"]) (by decide) (by decide)
  exact ⟨h.1, h.2.1⟩


/-- C6: `Not::execute` negates a Boolean operand result, fails with a
value error on every non-Boolean operand result, and `Not::type_def` is
`{fallible: true, optional: true, kind: Boolean}` for every operand
expression and every compiler state. -/
theorem not_spec {P O C : Type} (e : Expression P O C) (st : P) (o : O) (cst : C) :
    (∀ b st1 o1, e.exec st o = (.ok (.boolean b), st1, o1) →
        (NotExpr.mk e).exec st o = (.ok (.boolean (!b)), st1, o1))
    ∧ (∀ v st1 o1, e.exec st o = (.ok v, st1, o1) → (∀ b, v ≠ .boolean b) →
        ∃ msg, (NotExpr.mk e).exec st o = (.error msg, st1, o1))
    ∧ (NotExpr.mk e).tdef cst = ⟨true, true, Kind.booleanOnly⟩ := by
  refine ⟨?_, ?_, rfl⟩
  · intro b st1 o1 h
    unfold NotExpr.exec
    simp only
    rw [h]
    rfl
  · intro v st1 o1 h hb
    unfold NotExpr.exec
    simp only
    rw [h]
    cases v with
    | boolean b => exact absurd rfl (hb b)
    | null => exact ⟨_, rfl⟩
    | integer i => exact ⟨_, rfl⟩
    | str s2 => exact ⟨_, rfl⟩

/-- Witness for C6: a Boolean literal operand is negated, a String
literal operand produces a value error. -/
theorem not_spec_witness :
    (NotExpr.mk (litExpr (.boolean true)) : NotExpr Unit Unit Unit).exec () ()
        = (.ok (.boolean false), (), ())
    ∧ (∃ msg, (NotExpr.mk (litExpr (.str "not a bool")) : NotExpr Unit Unit Unit).exec () ()
        = (.error msg, (), ())) := by
  constructor
  · exact (not_spec (litExpr (.boolean true)) () () ()).1 true () () rfl
  · exact (not_spec (litExpr (.str "not a bool")) () () ()).2.1 (.str "not a bool") () () rfl
      (by intro b hb; cases hb)

/-- `true` exactly on a compile error. -/
def exceptIsErr {ε α : Type} : Except ε α → Bool
  | .error _ => true
  | .ok _ => false

/-- If some keyword in the scanned list is supplied with a non-path
expression, the optional-path collection loop aborts with an error. -/
theorem collectOptionalPaths_err (args : ArgumentList) (ks : List String) (k : String)
    (hk : k ∈ ks) (h : List.lookup k args = some .nonPath) :
    exceptIsErr (collectOptionalPaths args ks) = true := by
  induction ks with
  | nil => cases hk
  | cons k0 ks ih =>
    unfold collectOptionalPaths
    rcases List.mem_cons.mp hk with h0 | h0
    · subst h0
      unfold optional_path
      rw [h]
      rfl
    · cases hop : optional_path args k0 with
      | error e => rfl
      | ok po =>
        cases po with
        | none => exact ih h0
        | some p =>
          have hcol := ih h0
          cases hc : collectOptionalPaths args ks with
          | error e => rfl
          | ok ps => rw [hc] at hcol; simp [exceptIsErr] at hcol

/-- If no scanned keyword is supplied with a non-path expression, the
loop collects exactly the supplied paths, in keyword order. -/
theorem collectOptionalPaths_ok (args : ArgumentList) (ks : List String)
    (h : ∀ k ∈ ks, List.lookup k args ≠ some .nonPath) :
    collectOptionalPaths args ks
      = .ok (ks.filterMap (fun k =>
          match List.lookup k args with
          | some (.pathLit p) => some p
          | _ => none)) := by
  induction ks with
  | nil => rfl
  | cons k0 ks ih =>
    have htail : ∀ k ∈ ks, List.lookup k args ≠ some .nonPath :=
      fun k hk => h k (List.mem_cons_of_mem _ hk)
    unfold collectOptionalPaths optional_path
    cases hl : List.lookup k0 args with
    | none => rw [ih htail]; simp [List.filterMap_cons, hl]
    | some a =>
      cases a with
      | pathLit p => rw [ih htail]; simp [List.filterMap_cons, hl]
      | nonPath => exact absurd hl (h k0 (List.mem_cons_self k0 ks))

/-- C9: `OnlyFields::compile` fails when keyword `"1"` is absent; it
fails when any supplied keyword among `"1"`…`"16"` does not resolve to a
path literal; on success it yields an `OnlyFieldsFn` holding exactly the
supplied paths in keyword order; while `OnlyFields::parameters()`
declares the sixteen keywords, none required, all accepting every
value. -/
theorem only_fields_compile_spec (args : ArgumentList) :
    (List.lookup "1" args = none → exceptIsErr (OnlyFields.compile args) = true)
    ∧ (∀ k ∈ onlyFieldsKeywords, List.lookup k args = some ArgShape.nonPath →
        exceptIsErr (OnlyFields.compile args) = true)
    ∧ (∀ p1, List.lookup "1" args = some (.pathLit p1) →
        (∀ k ∈ onlyFieldsKeywords, List.lookup k args ≠ some ArgShape.nonPath) →
        OnlyFields.compile args
          = .ok ⟨p1 :: (onlyFieldsKeywords.drop 1).filterMap (fun k =>
              match List.lookup k args with
              | some (.pathLit p) => some p
              | _ => none)⟩)
    ∧ OnlyFields.parameters.map Parameter.keyword = onlyFieldsKeywords
    ∧ (∀ pr ∈ OnlyFields.parameters, pr.required = false ∧ ∀ v, pr.accepts v = true) := by
  refine ⟨?_, ?_, ?_, rfl, ?_⟩
  · intro h
    unfold OnlyFields.compile required_path
    rw [h]
    rfl
  · intro k hk h
    unfold OnlyFields.compile
    by_cases hk1 : k = "1"
    · subst hk1
      unfold required_path
      rw [h]
      rfl
    · have hdrop : k ∈ onlyFieldsKeywords.drop 1 := by
        rcases List.mem_cons.mp hk with h1 | h1
        · exact absurd h1 hk1
        · exact h1
      cases hreq : required_path args "1" with
      | error e => rfl
      | ok p1 =>
        have hcol := collectOptionalPaths_err args (onlyFieldsKeywords.drop 1) k hdrop h
        cases hc : collectOptionalPaths args (onlyFieldsKeywords.drop 1) with
        | error e => rfl
        | ok ps => rw [hc] at hcol; simp [exceptIsErr] at hcol
  · intro p1 h1 hall
    have htail : ∀ k ∈ onlyFieldsKeywords.drop 1, List.lookup k args ≠ some ArgShape.nonPath :=
      fun k hk => hall k (List.mem_cons_of_mem _ hk)
    unfold OnlyFields.compile required_path
    rw [h1, collectOptionalPaths_ok args (onlyFieldsKeywords.drop 1) htail]
  · intro pr hpr
    rw [OnlyFields.parameters] at hpr
    rcases List.mem_map.mp hpr with ⟨k, _, hpr2⟩
    subst hpr2
    exact ⟨rfl, fun v => rfl⟩

/-- Witness for C9: a concrete missing `"1"`, a concrete non-path
argument, and a concrete successful compilation. -/
theorem only_fields_compile_spec_witness :
    exceptIsErr (OnlyFields.compile []) = true
    ∧ exceptIsErr (OnlyFields.compile [("1", .pathLit "foo"), ("2", .nonPath)]) = true
    ∧ OnlyFields.compile [("1", .pathLit "foo.bar"), ("3", .pathLit "baz")]
        = .ok ⟨["foo.bar", "baz"]⟩ := by
  refine ⟨?_, ?_, ?_⟩
  · exact (only_fields_compile_spec []).1 rfl
  · exact (only_fields_compile_spec [("1", .pathLit "foo"), ("2", .nonPath)]).2.1
      "2" (by decide) rfl
  · exact (only_fields_compile_spec [("1", .pathLit "foo.bar"), ("3", .pathLit "baz")]).2.2.1
      "foo.bar" rfl (by decide)

end Vector
